import Mathlib

/-!
Verification development for the BitPredict Telegram bot
(repository file telegram_bot/bot.py).

The bot is a stateless dispatch-and-render pipeline over an immutable
in-memory market catalog plus two best-effort JSON-RPC calls.  This file
gives a shallow embedding of the pure core of that pipeline:

* formatting helpers pct, sats_fmt, price_bar and the markup escaper
  (source name with a leading underscore, embedded here as esc);
* the market catalog MARKETS and the lookup find_market;
* the market-list filter and keyboard layout of send_markets_list;
* the outcome of fetch_block_height and fetch_balance as total
  functions of an abstract RPC response (the except-block that catches
  every exception makes the Python functions total in exactly this
  sense, returning None on any fault);
* the block-height line of send_stats;
* the callback-payload router callback_handler.

Numeric modelling convention: Python floats are embedded as rationals.
The Python expressions round(x) and the format specifiers with 0 or 1
fractional digits all round to nearest with ties to even; roundHalfEven
below is that policy on the exact rational value.  For every input these
theorems evaluate (catalog probabilities with two decimal digits, the
test values 0.005 and 0.125, and integer amounts far below 2^52) the
IEEE double computation in the source is exact at the rounding boundary,
so the rational semantics agrees with the Python semantics; this was
checked value by value against CPython.
-/

namespace BitPredict

/-- Round a rational to the nearest integer, ties to even: the rounding
used by Python round() and by the format specifiers of the form
percent-dot-zero-f and percent-dot-one-f. -/
def roundHalfEven (q : ℚ) : ℤ :=
  if q - ⌊q⌋ < 1/2 then ⌊q⌋
  else if 1/2 < q - ⌊q⌋ then ⌊q⌋ + 1
  else if ⌊q⌋ % 2 = 0 then ⌊q⌋ else ⌊q⌋ + 1

/-- Modelled from the spec: round-half-up rounding, the policy the spec
pins for renderProbabilityBar and formatPercent.  Used only to compare
the specified policy against the code. -/
def specRoundHalfUp (q : ℚ) : ℤ := ⌊q + 1/2⌋

theorem roundHalfEven_dist_le (q : ℚ) : |(roundHalfEven q : ℚ) - q| ≤ 1/2 := by
  have h0 : (⌊q⌋ : ℚ) ≤ q := Int.floor_le q
  have h1 : q < ⌊q⌋ + 1 := Int.lt_floor_add_one q
  unfold roundHalfEven
  split_ifs with ha hb hc
  · rw [abs_sub_comm, abs_of_nonneg (by linarith)]; linarith
  · rw [abs_of_nonneg (by push_cast; linarith)]; push_cast; linarith
  · rw [abs_sub_comm, abs_of_nonneg (by linarith)]; linarith
  · rw [abs_of_nonneg (by push_cast; linarith)]; push_cast; linarith

theorem roundHalfEven_tie_even (q : ℚ)
    (h : |(roundHalfEven q : ℚ) - q| = 1/2) : roundHalfEven q % 2 = 0 := by
  have h0 : (⌊q⌋ : ℚ) ≤ q := Int.floor_le q
  have h1 : q < ⌊q⌋ + 1 := Int.lt_floor_add_one q
  unfold roundHalfEven at h ⊢
  split_ifs at h ⊢ with ha hb hc
  · exfalso
    rw [abs_sub_comm, abs_of_nonneg (by linarith)] at h; linarith
  · exfalso
    rw [abs_of_nonneg (by push_cast; linarith)] at h
    push_cast at h; linarith
  · exact hc
  · omega

theorem roundHalfEven_nonneg {q : ℚ} (h : 0 ≤ q) : 0 ≤ roundHalfEven q := by
  have hd := roundHalfEven_dist_le q
  rw [abs_le] at hd
  have h2 : (-1 : ℚ) < (roundHalfEven q : ℚ) := by linarith [hd.1]
  have h3 : (-1 : ℤ) < roundHalfEven q := by exact_mod_cast h2
  omega

theorem roundHalfEven_le_of_le {q : ℚ} {b : ℤ} (h : q ≤ b) :
    roundHalfEven q ≤ b := by
  have hd := roundHalfEven_dist_le q
  rw [abs_le] at hd
  have h2 : (roundHalfEven q : ℚ) < (b : ℚ) + 1 := by linarith [hd.2]
  have h3 : roundHalfEven q < b + 1 := by exact_mod_cast h2
  omega

theorem roundHalfEven_intCast (n : ℤ) : roundHalfEven (n : ℚ) = n := by
  unfold roundHalfEven
  rw [Int.floor_intCast]
  simp

theorem roundHalfEven_of_floor_frac_lt {q : ℚ} {f : ℤ} (hf : ⌊q⌋ = f)
    (h : q - f < 1/2) : roundHalfEven q = f := by
  unfold roundHalfEven
  rw [hf, if_pos h]

theorem roundHalfEven_of_floor_frac_gt {q : ℚ} {f : ℤ} (hf : ⌊q⌋ = f)
    (h : 1/2 < q - f) : roundHalfEven q = f + 1 := by
  unfold roundHalfEven
  rw [hf, if_neg (by linarith), if_pos h]

theorem roundHalfEven_add_half (k : ℤ) :
    roundHalfEven ((k : ℚ) + 1/2) = if k % 2 = 0 then k else k + 1 := by
  have hf : ⌊(k : ℚ) + 1/2⌋ = k := by
    rw [Int.floor_eq_iff]
    constructor
    · linarith
    · linarith
  unfold roundHalfEven
  rw [hf]
  norm_num

/-!
Formatting helpers of bot.py (section Helpers, lines 259 to 279).
-/

/-- Embedding of bot.py pct: the f-string with the percent-dot-zero-f
specifier applied to v times 100, followed by a percent sign.  Defined
for the nonnegative probabilities the bot passes in; for a negative
argument rounding to zero Python would print a minus sign before the 0,
a case no caller reaches and not modelled. -/
def pct (v : ℚ) : String := toString (roundHalfEven (v * 100)) ++ "%"

/-- Embedding of bot.py sats_fmt: amounts of at least one million get a
one-decimal M suffix, amounts of at least one thousand a no-decimal K
suffix, anything else is printed literally.  The two format specifiers
round half to even on the exact quotient, as in the source; the
one-decimal value is rendered from d tenths as (d div 10).(d mod 10). -/
def sats_fmt (v : ℤ) : String :=
  if 1000000 ≤ v then
    toString (roundHalfEven ((v : ℚ) / 100000) / 10) ++ "." ++
      toString (roundHalfEven ((v : ℚ) / 100000) % 10) ++ "M"
  else if 1000 ≤ v then
    toString (roundHalfEven ((v : ℚ) / 1000)) ++ "K"
  else
    toString v

/-- Python string repetition: s * n is empty for n nonpositive.  Each
bar segment of bot.py price_bar is a single-character string, so the
repetition is a character replicate. -/
def pyRepeatChar (c : Char) (n : ℤ) : List Char := List.replicate n.toNat c

/-- Embedding of bot.py price_bar: filled = round(yes * 10) green
segments followed by (10 - filled) red segments. -/
def price_bar (yes : ℚ) : String :=
  String.mk (pyRepeatChar '🟢' (roundHalfEven (yes * 10)) ++
    pyRepeatChar '🔴' (10 - roundHalfEven (yes * 10)))

/-- The reserved-character string of bot.py (raw string literal on line
271); the braces are written as hex escapes. -/
def ESCAPE_CHARS : String := "_*[]()~`>#+-=|\x7b\x7d.!"

/-- Embedding of bot.py _esc: join of one fragment per input character,
where a character contained in ESCAPE_CHARS becomes a two-character
fragment starting with a backslash and every other character is kept as
a one-character fragment. -/
def esc (text : String) : String :=
  String.join (text.toList.map (fun ch =>
    if ESCAPE_CHARS.toList.contains ch then String.mk ['\\', ch]
    else String.mk [ch]))

theorem foldl_append_data (L : List String) (a : String) :
    (L.foldl (fun r s => r ++ s) a).data = a.data ++ (L.map String.data).flatten := by
  induction L generalizing a with
  | nil => simp
  | cons h t ih =>
    simp only [List.foldl, List.map, List.flatten]
    rw [ih]
    simp [String.data_append]

theorem esc_data (s : String) :
    (esc s).data = s.data.flatMap (fun c =>
      if c ∈ ESCAPE_CHARS.data then ['\\', c] else [c]) := by
  have hfun : (String.data ∘ fun ch =>
      if ESCAPE_CHARS.data.contains ch then String.mk ['\\', ch]
      else String.mk [ch])
      = fun c => if c ∈ ESCAPE_CHARS.data then ['\\', c] else [c] := by
    funext c
    by_cases hc : c ∈ ESCAPE_CHARS.data
    · simp [String.toList, List.elem_iff, hc]
    · simp [String.toList, List.elem_iff, hc]
  unfold esc String.join
  rw [foldl_append_data]
  simp only [String.toList, List.map_map, List.nil_append]
  rw [List.flatMap_def, hfun]

/-!
Market catalog of bot.py (MARKETS, lines 65 to 102, and CATEGORIES,
lines 104 to 107).  Each Python dict entry becomes a structure field;
the source key named end is embedded as endDate because end is a
reserved word in Lean.  Probabilities are the exact two-decimal literals
of the source. -/

structure Market where
  id : String
  question : String
  category : String
  yes : ℚ
  no : ℚ
  volume : ℤ
  liquidity : ℤ
  endDate : String
  tags : List String
  emoji : String
deriving DecidableEq

def MARKETS : List Market := [
  { id := "btc-100k-2026", question := "Will Bitcoin reach $150,000 by end of 2026?",
    category := "Crypto", yes := 0.72, no := 0.28, volume := 245000, liquidity := 89000,
    endDate := "2026-12-31", tags := ["bitcoin", "price", "bullish"], emoji := "📈" },
  { id := "eth-etf-spot", question := "Will Ethereum spot ETF surpass $50B AUM in 2026?",
    category := "Crypto", yes := 0.45, no := 0.55, volume := 178000, liquidity := 62000,
    endDate := "2026-12-31", tags := ["ethereum", "etf"], emoji := "💰" },
  { id := "us-election-2026", question := "Will Republicans win the 2026 US midterm elections?",
    category := "Politics", yes := 0.58, no := 0.42, volume := 520000, liquidity := 145000,
    endDate := "2026-11-03", tags := ["election", "usa"], emoji := "🗳️" },
  { id := "opnet-adoption", question := "Will OP_NET process 1M+ transactions by Q4 2026?",
    category := "Crypto", yes := 0.65, no := 0.35, volume := 92000, liquidity := 34000,
    endDate := "2026-12-31", tags := ["opnet", "bitcoin"], emoji := "🚀" },
  { id := "ai-agi-2027", question := "Will AGI be achieved before 2028?",
    category := "Tech", yes := 0.18, no := 0.82, volume := 890000, liquidity := 210000,
    endDate := "2027-12-31", tags := ["ai", "agi"], emoji := "🤖" },
  { id := "champions-league", question := "Will Real Madrid win Champions League 2026?",
    category := "Sports", yes := 0.32, no := 0.68, volume := 340000, liquidity := 95000,
    endDate := "2026-06-01", tags := ["football", "ucl"], emoji := "⚽" },
  { id := "btc-dominance", question := "Will BTC dominance exceed 65% in 2026?",
    category := "Crypto", yes := 0.54, no := 0.46, volume := 156000, liquidity := 48000,
    endDate := "2026-12-31", tags := ["bitcoin", "dominance"], emoji := "👑" },
  { id := "mars-mission", question := "Will SpaceX launch Starship to Mars orbit by 2027?",
    category := "Tech", yes := 0.25, no := 0.75, volume := 430000, liquidity := 120000,
    endDate := "2027-12-31", tags := ["spacex", "mars"], emoji := "🛸" },
  { id := "nft-comeback", question := "Will NFT market cap exceed $100B in 2026?",
    category := "Culture", yes := 0.15, no := 0.85, volume := 67000, liquidity := 22000,
    endDate := "2026-12-31", tags := ["nft", "market"], emoji := "🎨" },
  { id := "fed-rate-cut", question := "Will the Fed cut rates below 3% by end of 2026?",
    category := "Politics", yes := 0.41, no := 0.59, volume := 710000, liquidity := 195000,
    endDate := "2026-12-31", tags := ["fed", "rates"], emoji := "🏦" },
  { id := "solana-flip-eth", question := "Will Solana flip Ethereum in daily transactions by 2027?",
    category := "Crypto", yes := 0.38, no := 0.62, volume := 198000, liquidity := 56000,
    endDate := "2027-06-30", tags := ["solana", "ethereum"], emoji := "⚡" },
  { id := "world-cup-2026", question := "Will Brazil win the 2026 FIFA World Cup?",
    category := "Sports", yes := 0.22, no := 0.78, volume := 1200000, liquidity := 320000,
    endDate := "2026-07-19", tags := ["football", "world-cup"], emoji := "🏆" }]

/-- The first catalog entry, named so that concrete theorems can refer
to it. -/
def btcMarket : Market :=
  { id := "btc-100k-2026", question := "Will Bitcoin reach $150,000 by end of 2026?",
    category := "Crypto", yes := 0.72, no := 0.28, volume := 245000, liquidity := 89000,
    endDate := "2026-12-31", tags := ["bitcoin", "price", "bullish"], emoji := "📈" }

/-- Embedding of the CATEGORIES dict of bot.py as an association list in
insertion order (Python dicts preserve insertion order). -/
def CATEGORIES : List (String × String) :=
  [("Crypto", "💰"), ("Politics", "🗳️"), ("Sports", "⚽"),
   ("Tech", "🤖"), ("Culture", "🎨")]

/-- Embedding of bot.py find_market: first catalog entry whose id equals
the argument, None when there is none. -/
def find_market (market_id : String) : Option Market :=
  MARKETS.find? (fun m => m.id == market_id)

/-- The filtered list computed at the top of bot.py send_markets_list:
the whole catalog for the sentinel category All, otherwise the entries
whose category field equals the argument, in catalog order. -/
def markets_for (category : String) : List Market :=
  if category == "All" then MARKETS
  else MARKETS.filter (fun m => m.category == category)

/-!
RPC gateway of bot.py (fetch_block_height, lines 285 to 298, and
fetch_balance, lines 300 to 315).

The network interaction is abstracted into an RpcResponse: failure
stands for any exception raised before the result field is read
(timeout, transport error, a body that is not JSON), and ok carries the
shape of the result field of the parsed body.  Float results are not
modelled (the RPC endpoint returns heights and balances as integers or
strings; no claim touches them).  A Python bool is an instance of int,
so a boolean result passes the isinstance check and is kept as 0 or 1.

Both Python functions wrap their body in a try block whose except
clause catches every exception, logs at warning level and falls through
to return None; they are therefore total, and the embedding returns an
RpcOutcome recording the returned value together with whether the
warning log statement ran.
-/

inductive RpcResult where
  | null
  | absent
  | jstr (s : String)
  | jint (n : ℤ)
  | jbool (b : Bool)
  | other
deriving DecidableEq

inductive RpcResponse where
  | failure
  | ok (result : RpcResult)
deriving DecidableEq

structure RpcOutcome where
  value : Option ℤ
  warned : Bool
deriving DecidableEq

/-- Value of a decimal digit character, None otherwise. -/
def decDigit? (c : Char) : Option ℕ :=
  if 48 ≤ c.toNat ∧ c.toNat ≤ 57 then some (c.toNat - 48) else none

/-- Value of a hexadecimal digit character, None otherwise. -/
def hexDigit? (c : Char) : Option ℕ :=
  if 48 ≤ c.toNat ∧ c.toNat ≤ 57 then some (c.toNat - 48)
  else if 97 ≤ c.toNat ∧ c.toNat ≤ 102 then some (c.toNat - 87)
  else if 65 ≤ c.toNat ∧ c.toNat ≤ 70 then some (c.toNat - 55)
  else none

/-- Left-to-right digit accumulation; None as soon as a character is not
a digit of the base. -/
def parseDigits (dig : Char → Option ℕ) (base : ℕ) : List Char → ℕ → Option ℕ
  | [], acc => some acc
  | c :: rest, acc =>
    match dig c with
    | some d => parseDigits dig base rest (acc * base + d)
    | none => none

/-- A nonempty all-digit run, else None (Python int raises ValueError on
an empty digit run). -/
def parseNat (dig : Char → Option ℕ) (base : ℕ) (cs : List Char) : Option ℕ :=
  match cs with
  | [] => none
  | _ => parseDigits dig base cs 0

/-- Digit run of Python int(s, 16): an optional 0x or 0X prefix is
allowed and stripped. -/
def parseHexBody (cs : List Char) : Option ℕ :=
  match cs with
  | '0' :: x :: rest =>
    if x == 'x' || x == 'X' then parseNat hexDigit? 16 rest
    else parseNat hexDigit? 16 cs
  | _ => parseNat hexDigit? 16 cs

/-- Unsigned part of Python int: hexadecimal with optional 0x marker
when base16 is set, else decimal. -/
def pyIntBody (base16 : Bool) (cs : List Char) : Option ℕ :=
  if base16 then parseHexBody cs else parseNat decDigit? 10 cs

/-- Model of Python int(s) (base16 false) and int(s, 16) (base16 true),
restricted to inputs without surrounding whitespace or underscore digit
separators, which the RPC layer never produces: an optional sign
followed by a nonempty digit run; None models the ValueError that the
except clause of the caller catches. -/
def pyInt (base16 : Bool) (s : String) : Option ℤ :=
  match s.toList with
  | '-' :: rest => (pyIntBody base16 rest).map (fun n => -(n : ℤ))
  | '+' :: rest => (pyIntBody base16 rest).map (fun n => (n : ℤ))
  | cs => (pyIntBody base16 cs).map (fun n => (n : ℤ))

/-- Python startswith on whole strings. -/
def pyStartsWith (s p : String) : Bool := p.toList.isPrefixOf s.toList

/-- The string branch shared by both fetchers: base 16 when the string
starts with 0x, else base 10. -/
def rpcStrToInt (s : String) : Option ℤ :=
  if pyStartsWith s ("0x") then pyInt true s else pyInt false s

/-- Embedding of bot.py fetch_block_height.  A string result is parsed
(a ValueError lands in the except clause, which logs a warning); an int
result is returned as is; a bool result is an int in Python; every other
shape falls through the isinstance checks to return None without
logging. -/
def fetch_block_height : RpcResponse → RpcOutcome
  | .failure => ⟨none, true⟩
  | .ok (.jstr s) =>
    match rpcStrToInt s with
    | some n => ⟨some n, false⟩
    | none => ⟨none, true⟩
  | .ok (.jint n) => ⟨some n, false⟩
  | .ok (.jbool b) => ⟨some (if b then 1 else 0), false⟩
  | .ok .null => ⟨none, false⟩
  | .ok .absent => ⟨none, false⟩
  | .ok .other => ⟨none, false⟩

/-- Embedding of bot.py fetch_balance.  Differences from
fetch_block_height mirror the source: a null or absent result is
returned early as None, and any other unrecognized shape goes through
int(result), whose TypeError lands in the except clause and logs. -/
def fetch_balance : RpcResponse → RpcOutcome
  | .failure => ⟨none, true⟩
  | .ok .null => ⟨none, false⟩
  | .ok .absent => ⟨none, false⟩
  | .ok (.jstr s) =>
    match rpcStrToInt s with
    | some n => ⟨some n, false⟩
    | none => ⟨none, true⟩
  | .ok (.jint n) => ⟨some n, false⟩
  | .ok (.jbool b) => ⟨some (if b then 1 else 0), false⟩
  | .ok .other => ⟨none, true⟩

/-!
Stats screen of bot.py (send_stats, lines 519 to 543): only the block
height line and the status line depend on the RPC result; both are
selected by Python truthiness of the height, so None and 0 take the
same branch.
-/

/-- Python truthiness of an optional integer: None and 0 are falsy. -/
def py_truthy_int : Option ℤ → Bool
  | none => false
  | some n => !(n == 0)

/-- Reversed-input chunking into groups of three, for the thousands
separator of the Python comma format specifier. -/
def chunksOf3 {α : Type} : List α → List (List α)
  | [] => []
  | [a] => [[a]]
  | [a, b] => [[a, b]]
  | a :: b :: c :: t => [a, b, c] :: chunksOf3 t

/-- The Python comma format specifier for an integer: decimal digits
grouped in threes from the right, groups joined by commas, a minus sign
in front for negatives. -/
def intComma (n : ℤ) : String :=
  (if n < 0 then "-" else "") ++
    String.mk (((chunksOf3 (Nat.repr n.natAbs).toList.reverse).intersperse
      [',']).flatten.reverse)

/-- The connecting placeholder literal of bot.py line 521. -/
def CONNECTING : String := "_connecting\\.\\.\\._"

/-- Embedding of the height_str conditional of bot.py send_stats: the
bold comma-formatted height when the height is truthy, else the
connecting placeholder.  When the condition holds the optional value is
some nonzero integer, so the getD default is never read. -/
def stats_height_str (h : Option ℤ) : String :=
  if py_truthy_int h then "*" ++ intComma (h.getD 0) ++ "*" else CONNECTING

/-- Embedding of the status conditional of bot.py send_stats. -/
def stats_status (h : Option ℤ) : String :=
  if py_truthy_int h then "🟢 LIVE" else "🟡 CONNECTING"

/-!
Market list rendering of bot.py (send_markets_list, lines 402 to 436):
the message text enumerates every filtered market, while the inline
keyboard gets one market button for each of at most the first six
filtered markets, laid out in rows of two.
-/

/-- Python slicing into consecutive pairs, as in the list comprehension
on bot.py line 424. -/
def chunksOf2 {α : Type} : List α → List (List α)
  | [] => []
  | [a] => [[a]]
  | a :: b :: t => [a, b] :: chunksOf2 t

/-- Python string slicing s[:k]. -/
def pyTake (k : ℕ) (s : String) : String := String.mk (s.toList.take k)

/-- One market button of bot.py lines 421 to 423, as its label and
callback data. -/
def market_button (m : Market) : String × String :=
  (m.emoji ++ " " ++ pyTake 12 m.id, "market_" ++ m.id)

/-- The market buttons of a filtered list: one per market of the first
six, in list order (bot.py line 420). -/
def market_buttons (filtered : List Market) : List (String × String) :=
  (filtered.take 6).map market_button

/-- The market-button rows of the keyboard: the buttons chunked into
rows of two (bot.py line 424).  The web-app row appended afterwards and
the category rows inserted for the All view carry no market buttons and
are not part of this list. -/
def market_button_rows (filtered : List Market) : List (List (String × String)) :=
  chunksOf2 (market_buttons filtered)

/-- The title line of bot.py send_markets_list. -/
def markets_title (category : String) : String :=
  if category == "All" then "📊 *All Markets*"
  else
    ((CATEGORIES.find? (fun p => p.1 == category)).map Prod.snd).getD ("") ++
      " *" ++ category ++ " Markets*"

/-- One numbered market entry of the message text (bot.py lines 413 to
416), a single string holding an embedded newline as in the source. -/
def market_entry (i : ℕ) (m : Market) : String :=
  toString i ++ "\\. " ++ m.emoji ++ " *" ++ esc m.question ++ "*\n   🟢 " ++
    pct m.yes ++ " • 🔴 " ++ pct m.no ++ " • Vol: " ++ sats_fmt m.volume ++ " sats"

/-- The lines list of bot.py send_markets_list: title, blank line, then
for every filtered market its entry followed by a blank line, with
one-based enumeration. -/
def markets_lines (category : String) : List String :=
  [markets_title category, ""] ++
    (markets_for category).enum.flatMap (fun p => [market_entry (p.1 + 1) p.2, ""])

/-!
Callback-payload router of bot.py (callback_handler, lines 717 to 743).
Screen names the renderer invocation the handler dispatches to,
together with its resolved argument; the two not-found screens are the
plain reply on line 731 and the reply of send_ai_analysis on line 599.
Python str.replace replaces every occurrence of the pattern; pyReplace
models that with a fuel argument bounded by the string length (each
step consumes at least one character, so the fuel never runs out for a
nonempty pattern; an empty pattern, where Python inserts the
replacement between all characters, never occurs in the source and is
modelled as identity).
-/

/-- Remove a leading prefix that is known to match. -/
def dropMatched {α : Type} : List α → List α → List α
  | [], s => s
  | _ :: _, [] => []
  | _ :: ps, _ :: s => dropMatched ps s

/-- Fuel-indexed replacement of every non-overlapping occurrence of pat,
scanning left to right. -/
def replaceFuel (pat repl : List Char) : ℕ → List Char → List Char
  | 0, s => s
  | _ + 1, [] => []
  | f + 1, c :: rest =>
    if pat.isPrefixOf (c :: rest) && !pat.isEmpty then
      repl ++ replaceFuel pat repl f (dropMatched pat (c :: rest))
    else c :: replaceFuel pat repl f rest

/-- Model of Python str.replace for a nonempty pattern. -/
def pyReplace (s pat repl : String) : String :=
  String.mk (replaceFuel pat.toList repl.toList s.toList.length s.toList)

inductive Screen where
  | marketsList (category : String)
  | marketDetail (m : Market)
  | marketNotFound
  | aiAnalysis (m : Market)
  | aiMarketNotFound (market_id : String)
  | stats
  | howItWorks
  | achievements
  | quests
  | noop
deriving DecidableEq

/-- Embedding of bot.py send_ai_analysis up to its market lookup: the
not-found reply when the id is not in the catalog, else the analysis
view of the found market. -/
def send_ai_analysis (market_id : String) : Screen :=
  match find_market market_id with
  | none => .aiMarketNotFound market_id
  | some m => .aiAnalysis m

/-- Embedding of the elif chain of bot.py callback_handler, in source
order.  Unrecognized payloads fall off the end of the chain and do
nothing. -/
def callback_handler (data : String) : Screen :=
  if data == "markets_all" then .marketsList "All"
  else if pyStartsWith data ("markets_") then
    .marketsList (pyReplace data ("markets_") (""))
  else if pyStartsWith data ("market_") then
    match find_market (pyReplace data ("market_") ("")) with
    | some m => .marketDetail m
    | none => .marketNotFound
  else if pyStartsWith data ("ai_") then
    send_ai_analysis (pyReplace data ("ai_") (""))
  else if data == "ai_analysis" then send_ai_analysis ("btc-100k-2026")
  else if data == "stats" then .stats
  else if data == "how" then .howItWorks
  else if data == "achievements" then .achievements
  else if data == "quests" then .quests
  else .noop

/-!
Further helper lemmas used by the claim theorems.
-/

theorem roundHalfEven_eq_of_cast {q : ℚ} {n : ℤ} (h : q = (n : ℚ)) :
    roundHalfEven q = n := by
  rw [h, roundHalfEven_intCast]

theorem roundHalfEven_half_even {q : ℚ} {k : ℤ} (h : q = (k : ℚ) + 1/2)
    (he : k % 2 = 0) : roundHalfEven q = k := by
  rw [h, roundHalfEven_add_half, if_pos he]

theorem parseDigits_isSome (dig : Char → Option ℕ) (base : ℕ) :
    ∀ (cs : List Char) (acc : ℕ), (∀ c ∈ cs, (dig c).isSome) →
      (parseDigits dig base cs acc).isSome
  | [], _, _ => rfl
  | c :: rest, acc, h => by
    have hc := h c (List.mem_cons_self c rest)
    unfold parseDigits
    cases hdig : dig c with
    | none => rw [hdig] at hc; exact absurd hc (by simp)
    | some d =>
      exact parseDigits_isSome dig base rest (acc * base + d)
        (fun x hx => h x (List.mem_cons_of_mem c hx))

theorem parseNat_isSome (dig : Char → Option ℕ) (base : ℕ) (cs : List Char)
    (hne : cs ≠ []) (h : ∀ c ∈ cs, (dig c).isSome) :
    (parseNat dig base cs).isSome := by
  unfold parseNat
  match cs, hne with
  | c :: rest, _ => exact parseDigits_isSome dig base (c :: rest) 0 h

theorem pyInt_cons_not_sign (b : Bool) (c : Char) (t : List Char)
    (h1 : c ≠ '-') (h2 : c ≠ '+') :
    pyInt b (String.mk (c :: t)) = (pyIntBody b (c :: t)).map (fun n => (n : ℤ)) := by
  unfold pyInt
  split
  · rename_i rest heq
    exact absurd (List.cons.injEq .. ▸ heq).1 h1
  · rename_i rest heq
    exact absurd (List.cons.injEq .. ▸ heq).1 h2
  · rfl

theorem digits_no_hex_marker (ds : List Char)
    (hd : ∀ c ∈ ds, (decDigit? c).isSome) :
    pyStartsWith (String.mk ds) ("0x") = false := by
  show List.isPrefixOf ['0', 'x'] ds = false
  cases ds with
  | nil => rfl
  | cons c t =>
    cases t with
    | nil => simp [List.isPrefixOf]
    | cons d u =>
      have hdd := hd d (by simp)
      simp only [List.isPrefixOf]
      by_cases hx : d = 'x'
      · subst hx; exact absurd hdd (by decide)
      · have hbx : ('x' == d) = false := beq_eq_false_iff_ne.mpr (fun h => hx h.symm)
        simp [hbx]

theorem rpcStrToInt_decimal_digits (ds : List Char) (hne : ds ≠ [])
    (hd : ∀ c ∈ ds, (decDigit? c).isSome) :
    ∃ n : ℕ, rpcStrToInt (String.mk ds) = some (n : ℤ) := by
  have hbody : (pyIntBody false ds).isSome := by
    unfold pyIntBody
    rw [if_neg (by simp)]
    exact parseNat_isSome _ _ ds hne hd
  rw [Option.isSome_iff_exists] at hbody
  obtain ⟨n, hn⟩ := hbody
  refine ⟨n, ?_⟩
  unfold rpcStrToInt
  rw [digits_no_hex_marker ds hd]
  simp only [Bool.false_eq_true, if_false]
  match ds, hne with
  | c :: t, _ =>
    have hc := hd c (List.mem_cons_self c t)
    have h1 : c ≠ '-' := by rintro rfl; exact absurd hc (by decide)
    have h2 : c ≠ '+' := by rintro rfl; exact absurd hc (by decide)
    rw [pyInt_cons_not_sign false c t h1 h2, hn]
    rfl

theorem rpcStrToInt_hex_digits (ds : List Char) (hne : ds ≠ [])
    (hd : ∀ c ∈ ds, (hexDigit? c).isSome) :
    ∃ n : ℕ, rpcStrToInt (String.mk ('0' :: 'x' :: ds)) = some (n : ℤ) := by
  have hbody : (parseNat hexDigit? 16 ds).isSome :=
    parseNat_isSome _ _ ds hne hd
  rw [Option.isSome_iff_exists] at hbody
  obtain ⟨n, hn⟩ := hbody
  refine ⟨n, ?_⟩
  unfold rpcStrToInt
  rw [show pyStartsWith (String.mk ('0' :: 'x' :: ds)) ("0x") = true by
    simp [pyStartsWith, List.isPrefixOf]]
  simp only [if_true]
  rw [pyInt_cons_not_sign true '0' ('x' :: ds) (by decide) (by decide)]
  unfold pyIntBody parseHexBody
  simp only [if_pos]
  rw [show (('x' == 'x') || ('x' == 'X')) = true by decide]
  simp only [if_true, hn]
  rfl

/-!
Claim theorems.
-/

/-- C1: esc returns its input with a single backslash inserted
immediately before each occurrence of a reserved character and with
every character outside the reserved set unchanged (stated as the
character-level flatMap shape of the output); in particular, for every
reserved character c, escaping the three-character string a c b yields
a backslash immediately before c, and a string of one unreserved
character is unchanged. -/
theorem C1_escapeMarkup :
    (∀ s : String, (esc s).data = s.data.flatMap (fun c =>
      if c ∈ ESCAPE_CHARS.data then ['\\', c] else [c])) ∧
    (∀ c ∈ ESCAPE_CHARS.data,
      esc (String.mk ['a', c, 'b']) = String.mk ['a', '\\', c, 'b']) ∧
    (∀ c : Char, c ∉ ESCAPE_CHARS.data → esc (String.mk [c]) = String.mk [c]) := by
  refine ⟨esc_data, by decide, ?_⟩
  intro c hc
  apply String.ext
  rw [esc_data]
  simp [hc]

/-- C1 witness: the reserved underscore character, escaped inside a
three-character string. -/
theorem C1_escapeMarkup_witness :
    ('_' ∈ ESCAPE_CHARS.data) ∧
    esc (String.mk ['a', '_', 'b']) = String.mk ['a', '\\', '_', 'b'] :=
  ⟨by decide, C1_escapeMarkup.2.1 '_' (by decide)⟩

/-- C2: both RPC fetchers return None (the Unavailable value) on
transport failure, timeout or malformed body (all modelled by the
failure response, since the except clause catches every exception), on
a null or absent result field, and on an unparseable result string; a
0x-prefixed hexadecimal string, a decimal digit string and a native
integer are all normalized to an integer, and in particular the result
0x64 yields 100 and the result 100 yields 100 for both fetchers. -/
theorem C2_rpc_fetch :
    ((fetch_block_height .failure).value = none ∧
     (fetch_block_height (.ok .null)).value = none ∧
     (fetch_block_height (.ok .absent)).value = none ∧
     (fetch_block_height (.ok .other)).value = none ∧
     (fetch_block_height (.ok (.jstr ("not a number")))).value = none ∧
     (fetch_block_height (.ok (.jstr ("0x64")))).value = some 100 ∧
     (fetch_block_height (.ok (.jstr ("100")))).value = some 100 ∧
     (fetch_block_height (.ok (.jint 100))).value = some 100) ∧
    ((fetch_balance .failure).value = none ∧
     (fetch_balance (.ok .null)).value = none ∧
     (fetch_balance (.ok .absent)).value = none ∧
     (fetch_balance (.ok .other)).value = none ∧
     (fetch_balance (.ok (.jstr ("not a number")))).value = none ∧
     (fetch_balance (.ok (.jstr ("0x64")))).value = some 100 ∧
     (fetch_balance (.ok (.jstr ("100")))).value = some 100 ∧
     (fetch_balance (.ok (.jint 100))).value = some 100) ∧
    (∀ n : ℤ, (fetch_block_height (.ok (.jint n))).value = some n ∧
      (fetch_balance (.ok (.jint n))).value = some n) ∧
    (∀ ds : List Char, ds ≠ [] → (∀ c ∈ ds, (decDigit? c).isSome) →
      ∃ n : ℕ, (fetch_block_height (.ok (.jstr (String.mk ds)))).value = some (n : ℤ) ∧
        (fetch_balance (.ok (.jstr (String.mk ds)))).value = some (n : ℤ)) ∧
    (∀ ds : List Char, ds ≠ [] → (∀ c ∈ ds, (hexDigit? c).isSome) →
      ∃ n : ℕ,
        (fetch_block_height (.ok (.jstr (String.mk ('0' :: 'x' :: ds))))).value
          = some (n : ℤ) ∧
        (fetch_balance (.ok (.jstr (String.mk ('0' :: 'x' :: ds))))).value
          = some (n : ℤ)) := by
  refine ⟨by decide, by decide, fun n => ⟨rfl, rfl⟩, ?_, ?_⟩
  · intro ds hne hd
    obtain ⟨n, hn⟩ := rpcStrToInt_decimal_digits ds hne hd
    exact ⟨n, by simp only [fetch_block_height]; rw [hn],
      by simp only [fetch_balance]; rw [hn]⟩
  · intro ds hne hd
    obtain ⟨n, hn⟩ := rpcStrToInt_hex_digits ds hne hd
    exact ⟨n, by simp only [fetch_block_height]; rw [hn],
      by simp only [fetch_balance]; rw [hn]⟩

/-- C2 witness: the decimal digit run 100 is normalized by both
fetchers. -/
theorem C2_rpc_fetch_witness :
    (['1', '0', '0'] ≠ ([] : List Char)) ∧
    (∀ c ∈ ['1', '0', '0'], (decDigit? c).isSome) ∧
    (∃ n : ℕ,
      (fetch_block_height (.ok (.jstr (String.mk ['1', '0', '0'])))).value
        = some (n : ℤ) ∧
      (fetch_balance (.ok (.jstr (String.mk ['1', '0', '0'])))).value
        = some (n : ℤ)) :=
  ⟨by decide, by decide,
    C2_rpc_fetch.2.2.2.1 ['1', '0', '0'] (by decide) (by decide)⟩

/-- C3 counterexample: at the catalog probability 0.45 the rendered bar
has 4 positive segments, while the claimed clamped round-half-up policy
demands 5; Python round is ties-to-even, not half-up. -/
theorem C3_bar_counterexample :
    (price_bar 0.45).data.count '🟢' = 4 ∧
    min 10 (max 0 (specRoundHalfUp ((0.45 : ℚ) * 10))) = 5 ∧
    ((price_bar 0.45).data.count '🟢' : ℤ) ≠
      min 10 (max 0 (specRoundHalfUp ((0.45 : ℚ) * 10))) := by
  have h45 : roundHalfEven ((0.45 : ℚ) * 10) = 4 :=
    roundHalfEven_half_even (by norm_num) (by decide)
  have hup : specRoundHalfUp ((0.45 : ℚ) * 10) = 5 := by
    unfold specRoundHalfUp
    rw [show (0.45 : ℚ) * 10 + 1/2 = 5 by norm_num]
    exact Int.floor_intCast 5
  have hbar : (price_bar 0.45).data.count '🟢' = 4 := by
    unfold price_bar
    rw [h45]
    decide
  exact ⟨hbar, by rw [hup]; norm_num, by rw [hbar, hup]; norm_num⟩

/-- C3 amended: for every probability in the unit interval the bar has
ten segments, the number of green segments is the ties-to-even rounding
of ten times the probability (which lies in 0..10 without any clamping;
the code never clamps), and the rest are red; 0.72 renders as 7 green
and 3 red, 1 as all green, 0 as all red. -/
theorem C3_probability_bar :
    (∀ y : ℚ, 0 ≤ y → y ≤ 1 →
      ∃ k : ℤ, 0 ≤ k ∧ k ≤ 10 ∧
        (price_bar y).data.count '🟢' = k.toNat ∧
        (price_bar y).data.count '🔴' = 10 - k.toNat ∧
        (price_bar y).data.length = 10 ∧
        |(k : ℚ) - y * 10| ≤ 1/2 ∧
        (|(k : ℚ) - y * 10| = 1/2 → k % 2 = 0)) ∧
    price_bar 0.72 = "🟢🟢🟢🟢🟢🟢🟢🔴🔴🔴" ∧
    price_bar 1 = "🟢🟢🟢🟢🟢🟢🟢🟢🟢🟢" ∧
    price_bar 0 = "🔴🔴🔴🔴🔴🔴🔴🔴🔴🔴" := by
  refine ⟨?_, ?_, ?_, ?_⟩
  · intro y h0 h1
    refine ⟨roundHalfEven (y * 10), ?_, ?_, ?_, ?_, ?_, ?_, ?_⟩
    · exact roundHalfEven_nonneg (by nlinarith)
    · exact roundHalfEven_le_of_le (by push_cast; nlinarith)
    · unfold price_bar pyRepeatChar
      simp [List.count_append, List.count_replicate]
    · have hk0 : 0 ≤ roundHalfEven (y * 10) := roundHalfEven_nonneg (by nlinarith)
      have hk1 : roundHalfEven (y * 10) ≤ 10 :=
        roundHalfEven_le_of_le (by push_cast; nlinarith)
      unfold price_bar pyRepeatChar
      simp [List.count_append, List.count_replicate]
      omega
    · have hk0 : 0 ≤ roundHalfEven (y * 10) := roundHalfEven_nonneg (by nlinarith)
      have hk1 : roundHalfEven (y * 10) ≤ 10 :=
        roundHalfEven_le_of_le (by push_cast; nlinarith)
      unfold price_bar pyRepeatChar
      rw [List.length_append, List.length_replicate, List.length_replicate]
      omega
    · exact roundHalfEven_dist_le (y * 10)
    · exact roundHalfEven_tie_even (y * 10)
  · have h : roundHalfEven ((0.72 : ℚ) * 10) = 7 :=
      roundHalfEven_of_floor_frac_lt (by norm_num) (by norm_num)
    unfold price_bar
    rw [h]
    decide
  · have h : roundHalfEven ((1 : ℚ) * 10) = 10 :=
      roundHalfEven_eq_of_cast (by norm_num)
    unfold price_bar
    rw [h]
    decide
  · have h : roundHalfEven ((0 : ℚ) * 10) = 0 :=
      roundHalfEven_eq_of_cast (by norm_num)
    unfold price_bar
    rw [h]
    decide

/-- C3 witness: the amended bar property evaluated at 0.72. -/
theorem C3_probability_bar_witness :
    (0 ≤ (0.72 : ℚ)) ∧ ((0.72 : ℚ) ≤ 1) ∧
    (∃ k : ℤ, 0 ≤ k ∧ k ≤ 10 ∧
      (price_bar 0.72).data.count '🟢' = k.toNat ∧
      (price_bar 0.72).data.count '🔴' = 10 - k.toNat ∧
      (price_bar 0.72).data.length = 10 ∧
      |(k : ℚ) - (0.72 : ℚ) * 10| ≤ 1/2 ∧
      (|(k : ℚ) - (0.72 : ℚ) * 10| = 1/2 → k % 2 = 0)) :=
  ⟨by norm_num, by norm_num, C3_probability_bar.1 0.72 (by norm_num) (by norm_num)⟩

/-- C4: the callback payload ai_analysis is captured by the earlier
startswith ai underscore branch of the router, which strips the prefix
and looks up the nonexistent market id analysis, so dispatching it
renders the market-not-found reply; the dedicated exact-token branch of
the router, which would render the default-market analysis, is
unreachable for its own payload. -/
theorem C4_ai_analysis_shadowed :
    callback_handler ("ai_analysis") = Screen.aiMarketNotFound ("analysis") ∧
    find_market ("analysis") = none ∧
    pyStartsWith ("ai_analysis") ("ai_") = true ∧
    send_ai_analysis ("btc-100k-2026") = Screen.aiAnalysis btcMarket ∧
    callback_handler ("ai_analysis") ≠ send_ai_analysis ("btc-100k-2026") := by
  have h1 : callback_handler ("ai_analysis") = Screen.aiMarketNotFound ("analysis") := rfl
  have h2 : send_ai_analysis ("btc-100k-2026") = Screen.aiAnalysis btcMarket := rfl
  refine ⟨h1, rfl, rfl, h2, ?_⟩
  rw [h1, h2]
  intro h
  exact Screen.noConfusion h

/-- C5 counterexample: a fetched block height of 0 renders the
connecting placeholder, not the numeric height, because Python
truthiness treats 0 like None. -/
theorem C5_stats_zero_counterexample :
    stats_height_str (some 0) = CONNECTING ∧
    stats_height_str (some 0) ≠ "*" ++ intComma 0 ++ "*" := by
  exact ⟨rfl, by decide⟩

theorem bold_ne_connecting (t : String) : "*" ++ t ++ "*" ≠ CONNECTING := by
  intro h
  have hd : ("*" ++ t ++ "*").data = CONNECTING.data := congrArg String.data h
  rw [String.data_append, String.data_append] at hd
  have hh := congrArg List.head? hd
  rw [show ("*" : String).data = ['*'] from rfl] at hh
  simp only [List.cons_append, List.head?_cons] at hh
  rw [show CONNECTING.data.head? = some '_' from rfl] at hh
  exact absurd (Option.some.injEq .. ▸ hh) (by decide)

/-- C5 amended: the Stats screen renders the connecting placeholder
exactly when the fetched height is None or 0 (Python truthiness), and
the bold comma-formatted number for every nonzero height; the fetcher
logs a warning exactly on the exception paths (transport failure or an
unparseable result string), not on a null or absent result, and it
never raises (it is total, returning an RpcOutcome in every case). -/
theorem C5_stats_rendering :
    (∀ h : Option ℤ, stats_height_str h = CONNECTING ↔ (h = none ∨ h = some 0)) ∧
    (∀ n : ℤ, n ≠ 0 → stats_height_str (some n) = "*" ++ intComma n ++ "*") ∧
    (∀ h : Option ℤ, stats_status h = "🟡 CONNECTING" ↔ (h = none ∨ h = some 0)) ∧
    (fetch_block_height .failure).warned = true ∧
    (∀ s : String, rpcStrToInt s = none →
      (fetch_block_height (.ok (.jstr s))).warned = true) ∧
    (fetch_block_height (.ok .null)).warned = false ∧
    (fetch_block_height (.ok .absent)).warned = false := by
  refine ⟨?_, ?_, ?_, rfl, ?_, rfl, rfl⟩
  · intro h
    match h with
    | none => simp [stats_height_str, py_truthy_int]
    | some n =>
      by_cases hn : n = 0
      · subst hn
        simp [stats_height_str, py_truthy_int]
      · have ht : py_truthy_int (some n) = true := by
          simp [py_truthy_int, hn]
        rw [stats_height_str, ht]
        simp only [if_true, Option.getD_some]
        constructor
        · intro hc
          exact absurd hc (bold_ne_connecting (intComma n))
        · intro hc
          rcases hc with hc | hc
          · exact absurd hc (by simp)
          · exact absurd (Option.some.injEq .. ▸ hc) hn
  · intro n hn
    have ht : py_truthy_int (some n) = true := by simp [py_truthy_int, hn]
    rw [stats_height_str, ht]
    simp
  · intro h
    match h with
    | none => simp [stats_status, py_truthy_int]
    | some n =>
      by_cases hn : n = 0
      · subst hn
        simp [stats_status, py_truthy_int]
      · have ht : py_truthy_int (some n) = true := by simp [py_truthy_int, hn]
        rw [stats_status, ht]
        simp [hn]
  · intro s hs
    simp only [fetch_block_height]
    rw [hs]

/-- C5 witness: a nonzero height of 5 renders the bold formatted
number. -/
theorem C5_stats_rendering_witness :
    ((5 : ℤ) ≠ 0) ∧ stats_height_str (some 5) = "*" ++ intComma 5 ++ "*" :=
  ⟨by decide, C5_stats_rendering.2.1 5 (by decide)⟩

/-- C6: for nonnegative amounts, sats_fmt prints values under one
thousand literally; values under one million as an integer K multiple
within 500 of the amount divided by one thousand (rounded to a nearest
thousand), with no decimal; and values of at least one million as a
one-decimal M multiple within 50000 of the amount; with the three
examples 999, 245K and 1.2M. -/
theorem C6_formatAmount :
    (∀ n : ℤ, 0 ≤ n → n < 1000 → sats_fmt n = toString n) ∧
    (∀ n : ℤ, 1000 ≤ n → n < 1000000 →
      ∃ k : ℤ, sats_fmt n = toString k ++ "K" ∧ |1000 * k - n| ≤ 500) ∧
    (∀ n : ℤ, 1000000 ≤ n →
      ∃ a b : ℤ, sats_fmt n = toString a ++ "." ++ toString b ++ "M" ∧
        0 ≤ b ∧ b < 10 ∧ |100000 * (10 * a + b) - n| ≤ 50000) ∧
    sats_fmt 999 = "999" ∧ sats_fmt 245000 = "245K" ∧
    sats_fmt 1200000 = "1.2M" := by
  refine ⟨?_, ?_, ?_, by decide, ?_, ?_⟩
  · intro n h0 h1
    unfold sats_fmt
    rw [if_neg (by omega), if_neg (by omega)]
  · intro n h0 h1
    refine ⟨roundHalfEven ((n : ℚ) / 1000), ?_, ?_⟩
    · unfold sats_fmt
      rw [if_neg (by omega), if_pos h0]
    · have hd := roundHalfEven_dist_le ((n : ℚ) / 1000)
      have key : ((1000 * roundHalfEven ((n : ℚ) / 1000) - n : ℤ) : ℚ)
          = 1000 * ((roundHalfEven ((n : ℚ) / 1000) : ℚ) - (n : ℚ) / 1000) := by
        push_cast
        ring
      have habs : ((|1000 * roundHalfEven ((n : ℚ) / 1000) - n| : ℤ) : ℚ) ≤ 500 := by
        rw [Int.cast_abs, key, abs_mul, show |(1000 : ℚ)| = 1000 by norm_num]
        linarith
      exact_mod_cast habs
  · intro n h0
    refine ⟨roundHalfEven ((n : ℚ) / 100000) / 10,
      roundHalfEven ((n : ℚ) / 100000) % 10, ?_, by omega, by omega, ?_⟩
    · unfold sats_fmt
      rw [if_pos h0]
    · have hd := roundHalfEven_dist_le ((n : ℚ) / 100000)
      have hsum : 10 * (roundHalfEven ((n : ℚ) / 100000) / 10) +
          roundHalfEven ((n : ℚ) / 100000) % 10
          = roundHalfEven ((n : ℚ) / 100000) := by omega
      rw [hsum]
      have key : ((100000 * roundHalfEven ((n : ℚ) / 100000) - n : ℤ) : ℚ)
          = 100000 * ((roundHalfEven ((n : ℚ) / 100000) : ℚ) - (n : ℚ) / 100000) := by
        push_cast
        ring
      have habs : ((|100000 * roundHalfEven ((n : ℚ) / 100000) - n| : ℤ) : ℚ) ≤ 50000 := by
        rw [Int.cast_abs, key, abs_mul, show |(100000 : ℚ)| = 100000 by norm_num]
        linarith
      exact_mod_cast habs
  · have h : roundHalfEven (((245000 : ℤ) : ℚ) / 1000) = 245 :=
      roundHalfEven_eq_of_cast (by norm_num)
    unfold sats_fmt
    rw [if_neg (by decide), if_pos (by decide), h]
    rfl
  · have h : roundHalfEven (((1200000 : ℤ) : ℚ) / 100000) = 12 :=
      roundHalfEven_eq_of_cast (by norm_num)
    unfold sats_fmt
    rw [if_pos (by decide), h]
    rfl

/-- C6 witness: the K bracket evaluated at 245000. -/
theorem C6_formatAmount_witness :
    ((1000 : ℤ) ≤ 245000) ∧ ((245000 : ℤ) < 1000000) ∧
    (∃ k : ℤ, sats_fmt 245000 = toString k ++ "K" ∧ |1000 * k - 245000| ≤ 500) :=
  ⟨by decide, by decide, C6_formatAmount.2.1 245000 (by decide) (by decide)⟩

/-- C7 counterexample: at 0.125 the code prints 12 percent (ties to
even) while the claimed round-half-up policy demands 13 percent. -/
theorem C7_percent_counterexample :
    pct (1/8 : ℚ) = "12%" ∧
    specRoundHalfUp ((1/8 : ℚ) * 100) = 13 ∧
    pct (1/8 : ℚ) ≠ toString (specRoundHalfUp ((1/8 : ℚ) * 100)) ++ "%" := by
  have h : roundHalfEven ((1/8 : ℚ) * 100) = 12 :=
    roundHalfEven_half_even (by norm_num) (by decide)
  have hup : specRoundHalfUp ((1/8 : ℚ) * 100) = 13 := by
    unfold specRoundHalfUp
    rw [show (1/8 : ℚ) * 100 + 1/2 = 13 by norm_num]
    exact Int.floor_intCast 13
  have hp : pct (1/8 : ℚ) = "12%" := by
    unfold pct
    rw [h]
    rfl
  exact ⟨hp, hup, by rw [hp, hup]; decide⟩

/-- C7 amended: pct prints a nonnegative integer percent with no
decimal and a percent suffix, the integer being within half a percent
of the argument times 100 with ties resolved to the even integer
(Python bankers rounding, not half-up); in particular 0.72 gives 72
percent and 0.005 gives 0 percent. -/
theorem C7_formatPercent :
    (∀ v : ℚ, 0 ≤ v → ∃ k : ℤ, pct v = toString k ++ "%" ∧ 0 ≤ k ∧
      |(k : ℚ) - v * 100| ≤ 1/2 ∧ (|(k : ℚ) - v * 100| = 1/2 → k % 2 = 0)) ∧
    pct 0.72 = "72%" ∧ pct 0.005 = "0%" := by
  refine ⟨?_, ?_, ?_⟩
  · intro v hv
    exact ⟨roundHalfEven (v * 100), rfl,
      roundHalfEven_nonneg (by nlinarith),
      roundHalfEven_dist_le (v * 100),
      roundHalfEven_tie_even (v * 100)⟩
  · have h : roundHalfEven ((0.72 : ℚ) * 100) = 72 :=
      roundHalfEven_eq_of_cast (by norm_num)
    unfold pct
    rw [h]
    rfl
  · have h : roundHalfEven ((0.005 : ℚ) * 100) = 0 :=
      roundHalfEven_half_even (by norm_num) (by decide)
    unfold pct
    rw [h]
    rfl

/-- C7 witness: the rounding property evaluated at 0.72. -/
theorem C7_formatPercent_witness :
    (0 ≤ (0.72 : ℚ)) ∧
    (∃ k : ℤ, pct 0.72 = toString k ++ "%" ∧ 0 ≤ k ∧
      |(k : ℚ) - (0.72 : ℚ) * 100| ≤ 1/2 ∧
      (|(k : ℚ) - (0.72 : ℚ) * 100| = 1/2 → k % 2 = 0)) :=
  ⟨by norm_num, C7_formatPercent.1 0.72 (by norm_num)⟩

/-- C8: for every category filter other than the sentinel All, the
rendered market list is a sublist of the catalog (so catalog definition
order is preserved), contains exactly the catalog markets whose
category field equals the filter, and is empty (not an error) for a
filter matching no market. -/
theorem C8_category_filter :
    ∀ c : String, c ≠ "All" →
      ((markets_for c).Sublist MARKETS ∧
       (∀ m : Market, m ∈ markets_for c ↔ m ∈ MARKETS ∧ m.category = c) ∧
       ((∀ m ∈ MARKETS, m.category ≠ c) → markets_for c = [])) := by
  intro c hc
  have hne : (c == "All") = false := beq_eq_false_iff_ne.mpr hc
  have hdef : markets_for c = MARKETS.filter (fun m => m.category == c) := by
    unfold markets_for
    rw [hne]
    rfl
  refine ⟨?_, ?_, ?_⟩
  · rw [hdef]
    exact List.filter_sublist MARKETS
  · intro m
    rw [hdef, List.mem_filter]
    simp
  · intro hall
    rw [hdef]
    apply List.filter_eq_nil_iff.mpr
    intro m hm
    simp [hall m hm]

/-- C8 witness: the Sports filter. -/
theorem C8_category_filter_witness :
    ("Sports" ≠ "All") ∧
    ((markets_for ("Sports")).Sublist MARKETS ∧
     (∀ m : Market, m ∈ markets_for ("Sports") ↔
        m ∈ MARKETS ∧ m.category = "Sports") ∧
     ((∀ m ∈ MARKETS, m.category ≠ "Sports") → markets_for ("Sports") = [])) :=
  ⟨by decide, C8_category_filter ("Sports") (by decide)⟩

/-- C9: for every market in the catalog, the yes and no probabilities
sum to exactly 1. -/
theorem C9_probabilities_sum_one : ∀ m ∈ MARKETS, m.yes + m.no = 1 := by
  intro m hm
  fin_cases hm <;> norm_num

/-- C9 witness: the first catalog market. -/
theorem C9_probabilities_sum_one_witness :
    btcMarket ∈ MARKETS ∧ btcMarket.yes + btcMarket.no = 1 := by
  have hm : btcMarket ∈ MARKETS := List.mem_cons_self btcMarket _
  exact ⟨hm, C9_probabilities_sum_one btcMarket hm⟩

theorem chunksOf2_flatten {α : Type} : ∀ l : List α, (chunksOf2 l).flatten = l
  | [] => by simp [chunksOf2]
  | [a] => by simp [chunksOf2]
  | a :: b :: t => by simp [chunksOf2, chunksOf2_flatten t]

theorem chunksOf2_row_len {α : Type} :
    ∀ l : List α, ∀ row ∈ chunksOf2 l, 0 < row.length ∧ row.length ≤ 2
  | [] => by simp [chunksOf2]
  | [a] => by
    intro row hr
    simp only [chunksOf2, List.mem_singleton] at hr
    subst hr
    simp
  | a :: b :: t => by
    intro row hr
    simp only [chunksOf2, List.mem_cons] at hr
    rcases hr with rfl | hr
    · simp
    · exact chunksOf2_row_len t row hr

theorem length_flatMap_pair {α : Type} (l : List α) (f g : α → String) :
    (l.flatMap (fun a => [f a, g a])).length = 2 * l.length := by
  induction l with
  | nil => simp
  | cons h t ih =>
    simp only [List.flatMap_cons, List.length_append, List.length_cons,
      List.length_nil, List.length_flatMap] at ih ⊢
    omega

/-- C10: for every market-list render, the market-selection buttons of
the keyboard cover exactly the first six markets of the filtered list
(all of them when the list has at most six), chunked into rows of one
or two buttons in list order, while the message text enumerates every
filtered market (two text lines per market after the two title lines). -/
theorem C10_keyboard_chunking :
    ∀ c : String,
      ((market_button_rows (markets_for c)).flatten = market_buttons (markets_for c)) ∧
      ((market_buttons (markets_for c)).length = min 6 (markets_for c).length) ∧
      ((market_buttons (markets_for c)) = ((markets_for c).take 6).map market_button) ∧
      (∀ row ∈ market_button_rows (markets_for c), 0 < row.length ∧ row.length ≤ 2) ∧
      ((markets_for c).length ≤ 6 →
        market_buttons (markets_for c) = (markets_for c).map market_button) ∧
      ((markets_lines c).length = 2 + 2 * (markets_for c).length) := by
  intro c
  refine ⟨chunksOf2_flatten _, ?_, rfl, fun row hr => chunksOf2_row_len _ row hr,
    ?_, ?_⟩
  · unfold market_buttons
    rw [List.length_map, List.length_take]
  · intro hle
    unfold market_buttons
    rw [List.take_of_length_le hle]
  · unfold markets_lines
    rw [List.length_append, length_flatMap_pair]
    simp [List.enum_length]

/-- C10 witness: the first keyboard row of the all-markets view, a row
of two market buttons. -/
theorem C10_keyboard_chunking_witness :
    ([("📈 btc-100k-202", "market_btc-100k-2026"),
      ("💰 eth-etf-spot", "market_eth-etf-spot")]
        ∈ market_button_rows (markets_for ("All"))) ∧
    (0 < ([("📈 btc-100k-202", "market_btc-100k-2026"),
      ("💰 eth-etf-spot", "market_eth-etf-spot")] : List (String × String)).length ∧
     ([("📈 btc-100k-202", "market_btc-100k-2026"),
      ("💰 eth-etf-spot", "market_eth-etf-spot")] : List (String × String)).length ≤ 2) :=
  ⟨by decide,
    (C10_keyboard_chunking ("All")).2.2.2.1
      [("📈 btc-100k-202", "market_btc-100k-2026"),
       ("💰 eth-etf-spot", "market_eth-etf-spot")] (by decide)⟩

end BitPredict
